import Mathlib

set_option linter.unusedVariables false
set_option linter.unnecessarySimpa false

/-!
# Habit Verification & Progression Engine — formal model

A shallow embedding of the habit-tracker backend (`src/server.js`,
`src/aiVerifier.js`) together with theorems settling the specification
claims.  JavaScript numbers that hold integral counters are modelled as
`Nat`/`Int`; fallible operations return `Except`; the SQLite tables touched
by the verification route are modelled as explicit record state.
-/

namespace HabitTracker

/-! ## Day Boundary Resolver (`server.js` lines 86–101)

`Date.prototype.toISOString` renders the UTC calendar date of a timestamp
(milliseconds since the Unix epoch) using the proleptic Gregorian calendar.
We model a timestamp as `Int` milliseconds and reproduce the calendar
conversion (Gregorian civil-from-days) plus ISO-8601 formatting, including
the expanded ±YYYYYY form used outside years 0000–9999. -/

def msPerDay : Int := 86400000

/-- The UTC calendar day number (days since 1970-01-01) containing a
timestamp; `toISOString` renders this day.  Integer `/` is floor division
for the positive divisor. -/
def dayNumber (ms : Int) : Int := ms / msPerDay

/-- Era index (400-year Gregorian cycle) of a shifted day number. -/
def eraOf (z : Int) : Int := (z + 719468) / 146097

/-- Day-of-era, `0 ≤ doe < 146097`. -/
def doeOf (z : Int) : Nat := (z + 719468 - eraOf z * 146097).toNat

/-- Year-of-era `0..399` from day-of-era (Gregorian leap approximation). -/
def yoeOfDoe (doe : Nat) : Nat :=
  (doe - doe / 1460 + doe / 36524 - doe / 146096) / 365

/-- Day-of-era on which year-of-era `y` starts. -/
def yearStart (y : Nat) : Nat := 365 * y + y / 4 - y / 100

/-- Day-of-year (0-based, March-first year) from day-of-era. -/
def doyOfDoe (doe : Nat) : Nat := doe - yearStart (yoeOfDoe doe)

/-- Month-period index (0 = March … 11 = February) from day-of-year. -/
def mpOf (doy : Nat) : Nat := (5 * doy + 2) / 153

/-- Day-of-month from day-of-year. -/
def domOfDoy (doy : Nat) : Nat := doy - (153 * mpOf doy + 2) / 5 + 1

/-- Calendar month (1..12) from day-of-year. -/
def monthOf (doy : Nat) : Nat := if mpOf doy < 10 then mpOf doy + 3 else mpOf doy - 9

/-- Gregorian civil date `(year, month, day)` of a day number (days since
1970-01-01), the standard era-based conversion used by calendar
implementations. -/
def civilOfDay (z : Int) : Int × Nat × Nat :=
  let doy := doyOfDoe (doeOf z)
  let m := monthOf doy
  (eraOf z * 400 + yoeOfDoe (doeOf z) + (if m ≤ 2 then 1 else 0), m, domOfDoy doy)

/-- Two decimal digits, zero padded (`n` is taken mod 100). -/
def pad2 (n : Nat) : List Char := [Char.ofNat (48 + n / 10 % 10), Char.ofNat (48 + n % 10)]

/-- Four decimal digits, zero padded. -/
def pad4 (n : Nat) : List Char :=
  [Char.ofNat (48 + n / 1000 % 10), Char.ofNat (48 + n / 100 % 10),
   Char.ofNat (48 + n / 10 % 10), Char.ofNat (48 + n % 10)]

/-- Six decimal digits, zero padded. -/
def pad6 (n : Nat) : List Char :=
  [Char.ofNat (48 + n / 100000 % 10), Char.ofNat (48 + n / 10000 % 10),
   Char.ofNat (48 + n / 1000 % 10), Char.ofNat (48 + n / 100 % 10),
   Char.ofNat (48 + n / 10 % 10), Char.ofNat (48 + n % 10)]

/-- Year component as rendered by `toISOString`: `YYYY` for 0–9999,
expanded `+YYYYYY`/`-YYYYYY` outside that range. -/
def yearChars (y : Int) : List Char :=
  if 0 ≤ y ∧ y ≤ 9999 then pad4 y.toNat
  else if 9999 < y then '+' :: pad6 y.toNat
  else '-' :: pad6 (-y).toNat

/-- The `YYYY-MM-DD` string for a calendar day number: the date part of
`toISOString` for any timestamp inside that UTC day. -/
def dateStringOfDay (z : Int) : String :=
  let c := civilOfDay z
  String.mk (yearChars c.1 ++ '-' :: pad2 c.2.1 ++ '-' :: pad2 c.2.2)

/-- Model of `todayString(timezoneOffsetMinutes)` (server.js 86–94):
subtract the client offset (minutes, positive = behind UTC) from "now" and
render the UTC date of the shifted instant; with no offset supplied
(`undefined` / `null`, modelled `none`), render the date of "now"
directly. -/
def todayString (nowMs : Int) (timezoneOffsetMinutes : Option Int) : String :=
  match timezoneOffsetMinutes with
  | some off => dateStringOfDay (dayNumber (nowMs - off * 60000))
  | none => dateStringOfDay (dayNumber nowMs)

/-- Core of `yesterdayString` for a numeric offset (server.js 96–101):
shift "now" by the offset, then `setUTCDate(getUTCDate() - 1)`, which moves
the timestamp back exactly one UTC day (86 400 000 ms — JavaScript time has
no leap seconds), then render the date. -/
def yesterdayStringOf (nowMs : Int) (off : Int) : String :=
  dateStringOfDay (dayNumber (nowMs - off * 60000 - msPerDay))

/-- Model of `yesterdayString(timezoneOffsetMinutes)` (server.js 96–101).
Unlike `todayString` it has no missing-offset guard: with `undefined` the
arithmetic `now - undefined*60000` is `NaN`, the `Date` is invalid, and
`toISOString` throws a `RangeError` — modelled as `.error ()`. -/
def yesterdayString (nowMs : Int) (timezoneOffsetMinutes : Option Int) : Except Unit String :=
  match timezoneOffsetMinutes with
  | none => .error ()
  | some off => .ok (yesterdayStringOf nowMs off)

/-! ## Progression Calculator (`server.js` lines 64–81)

`xp` is a non-negative integer.  `Math.floor(1 + Math.sqrt(xp / 50))`
equals `1 + Nat.sqrt (xp / 50)` in exact arithmetic: for any natural `k`,
`k ≤ √(xp/50)` iff `k² ≤ ⌊xp/50⌋`.  `Math.round(x)` is `⌊x + 1/2⌋`, which
for the ratio `100·p/r` is `(200·p + r) / (2·r)` in integer division. -/

def calculateLevel (xp : Nat) : Nat := 1 + Nat.sqrt (xp / 50)

def xpForLevel (level : Nat) : Nat := level ^ 2 * 50

def xpProgressPercent (xp : Nat) : Nat :=
  let level := calculateLevel xp
  let currentLevelXp := xpForLevel (level - 1)
  let nextLevelXp := xpForLevel level
  let progressInLevel := xp - currentLevelXp
  let levelRange := nextLevelXp - currentLevelXp
  min 100 ((200 * progressInLevel + levelRange) / (2 * levelRange))

/-! ## Proof Normalizer (`aiVerifier.js` lines 10–64, `prepareImage`)

The image file is modelled by its lowercased extension (the source computes
`imagePath.split('.').pop().toLowerCase()`) and raw byte list.  The sharp
pipeline `sharp(path).resize(1600,1600,{fit:'inside',withoutEnlargement:
true}).jpeg({quality}).toBuffer()` is an abstract encoder from a resize
specification and a JPEG quality to output bytes (or a codec error).  The
source checks sizes on the raw buffer before base64-wrapping it; the model
returns the raw payload bytes together with the media type. -/

def MAX_IMAGE_BYTES : Nat := 4 * 1024 * 1024

structure ImageFile where
  ext : String
  bytes : List Nat

structure ResizeSpec where
  width : Nat
  height : Nat
  fitInside : Bool
  withoutEnlargement : Bool
deriving DecidableEq

def Encoder : Type := ResizeSpec → Nat → Except String (List Nat)

/-- The fixed resize arguments passed to sharp in the source. -/
def sharpResize : ResizeSpec := ⟨1600, 1600, true, true⟩

/-- The `while (quality >= 20)` re-encode loop of `prepareImage`: encode at
the current quality; stop when the buffer fits, otherwise drop the quality
by 15 and retry; on loop exit the most recent buffer is kept. -/
def compressLoop (enc : Encoder) (quality : Nat) (buf : Option (List Nat)) :
    Except String (Option (List Nat) × Nat) :=
  if hq : 20 ≤ quality then
    match enc sharpResize quality with
    | .error e => .error ("Could not process image: " ++ e)
    | .ok b =>
      if b.length ≤ MAX_IMAGE_BYTES then .ok (some b, quality)
      else compressLoop enc (quality - 15) (some b)
  else .ok (buf, quality)
termination_by quality
decreasing_by omega

/-- Model of `prepareImage` (aiVerifier.js 16–64): `none` models a path for
which `fs.existsSync` is false.  GIFs pass through unmodified if within the
ceiling and fail otherwise; every other format goes through the re-encode
loop starting at quality 85. -/
def prepareImage (file : Option ImageFile) (enc : Encoder) :
    Except String (List Nat × String) :=
  match file with
  | none => .error "Image file not found on disk"
  | some f =>
    if f.ext = "gif" then
      if MAX_IMAGE_BYTES < f.bytes.length then
        .error "GIF is too large. Please use a JPG or PNG instead."
      else .ok (f.bytes, "image/gif")
    else
      match compressLoop enc 85 none with
      | .error e => .error e
      | .ok (none, _) => .error "Image processing failed unexpectedly"
      | .ok (some b, _) =>
        if MAX_IMAGE_BYTES < b.length then
          .error "Image is too large even after compression. Please use a smaller image."
        else .ok (b, "image/jpeg")

/-! ## Verdict Interpreter (`aiVerifier.js` lines 70–177, `verifyHabit`)

The oracle reply is free text; the source strips markdown fences, regex-
extracts the outermost brace region, runs `JSON.parse`, and validates the
fields.  We model JSON values and a parser with the relevant `JSON.parse`
semantics (duplicate object keys resolve to the last binding; trailing
non-whitespace is an error).  Escapes other than the simple ones and
non-decimal numerals are modelled as parse failures, which only widens the
safe-fail path against the real `JSON.parse`. -/

inductive Json where
  | null
  | bool (b : Bool)
  | num (mantissa : Int) (raw : String)
  | str (s : String)
  | arr (elems : List Json)
  | obj (fields : List (String × Json))

def isWsChar (c : Char) : Bool := c = ' ' || c = '\t' || c = '\n' || c = '\r'

def skipWs : List Char → List Char
  | [] => []
  | c :: rest => if isWsChar c then skipWs rest else c :: rest

/-- Trim whitespace from both ends of a character list (`String.trim`). -/
def trimChars (s : List Char) : List Char := (skipWs (skipWs s).reverse).reverse

/-- String-literal body parser, after the opening quote: yields content and
remaining input, `none` on an unterminated literal or unsupported escape. -/
def parseStrBody : List Char → Option (List Char × List Char)
  | [] => none
  | '"' :: rest => some ([], rest)
  | '\\' :: e :: rest =>
    let esc : Option Char :=
      if e = '"' then some '"'
      else if e = '\\' then some '\\'
      else if e = '/' then some '/'
      else if e = 'n' then some '\n'
      else if e = 't' then some '\t'
      else if e = 'r' then some '\r'
      else none
    match esc with
    | none => none
    | some c =>
      match parseStrBody rest with
      | none => none
      | some (s, r) => some (c :: s, r)
  | c :: rest =>
    match parseStrBody rest with
    | none => none
    | some (s, r) => some (c :: s, r)

def takeDigits : List Char → List Char × List Char
  | [] => ([], [])
  | c :: rest =>
    if c.isDigit then
      let (d, r) := takeDigits rest
      (c :: d, r)
    else ([], c :: rest)

def digitsVal (ds : List Char) : Nat :=
  ds.foldl (fun a c => 10 * a + (c.toNat - 48)) 0

/-- Numeric-literal parser: optional minus, digits, optional fraction and
exponent.  The mantissa (all significand digits, signed) determines JS
truthiness; the raw literal text is kept for display. -/
def parseNum (s : List Char) : Option (Json × List Char) :=
  let (neg, s1) := match s with
    | '-' :: r => (true, r)
    | _ => (false, s)
  let (ds, s2) := takeDigits s1
  if ds = [] then none
  else
    let (fracDigits, s3) := match s2 with
      | '.' :: r => takeDigits r
      | _ => ([], s2)
    if s2 ≠ [] ∧ s2.head? = some '.' ∧ fracDigits = [] then none
    else
      let mant : Nat := digitsVal ds * 10 ^ fracDigits.length + digitsVal fracDigits
      let (expOk, s4) : Bool × List Char := match s3 with
        | 'e' :: '+' :: r | 'E' :: '+' :: r =>
          let (es, r2) := takeDigits r
          (es ≠ [], r2)
        | 'e' :: '-' :: r | 'E' :: '-' :: r =>
          let (es, r2) := takeDigits r
          (es ≠ [], r2)
        | 'e' :: r | 'E' :: r =>
          let (es, r2) := takeDigits r
          (es ≠ [], r2)
        | _ => (true, s3)
      if expOk then
        let raw := String.mk (s.take (s.length - s4.length))
        some (.num (if neg then -(mant : Int) else (mant : Int)) raw, s4)
      else none

mutual

def parseVal : Nat → List Char → Option (Json × List Char)
  | 0, _ => none
  | fuel+1, s =>
    match skipWs s with
    | [] => none
    | c :: rest =>
      if c = '{' then
        match skipWs rest with
        | '}' :: r => some (.obj [], r)
        | r1 => parseMembers fuel r1 []
      else if c = '[' then
        match skipWs rest with
        | ']' :: r => some (.arr [], r)
        | r1 => parseElems fuel r1 []
      else if c = '"' then
        match parseStrBody rest with
        | none => none
        | some (cs, r) => some (.str (String.mk cs), r)
      else if c = 't' then
        match rest with
        | 'r' :: 'u' :: 'e' :: r => some (.bool true, r)
        | _ => none
      else if c = 'f' then
        match rest with
        | 'a' :: 'l' :: 's' :: 'e' :: r => some (.bool false, r)
        | _ => none
      else if c = 'n' then
        match rest with
        | 'u' :: 'l' :: 'l' :: r => some (.null, r)
        | _ => none
      else parseNum (c :: rest)

def parseMembers : Nat → List Char → List (String × Json) → Option (Json × List Char)
  | 0, _, _ => none
  | fuel+1, s, acc =>
    match skipWs s with
    | '"' :: rest =>
      match parseStrBody rest with
      | none => none
      | some (key, r1) =>
        match skipWs r1 with
        | ':' :: r2 =>
          match parseVal fuel r2 with
          | none => none
          | some (v, r3) =>
            match skipWs r3 with
            | ',' :: r4 => parseMembers fuel r4 (acc ++ [(String.mk key, v)])
            | '}' :: r4 => some (.obj (acc ++ [(String.mk key, v)]), r4)
            | _ => none
        | _ => none
    | _ => none

def parseElems : Nat → List Char → List Json → Option (Json × List Char)
  | 0, _, _ => none
  | fuel+1, s, acc =>
    match parseVal fuel s with
    | none => none
    | some (v, r1) =>
      match skipWs r1 with
      | ',' :: r2 => parseElems fuel r2 (acc ++ [v])
      | ']' :: r2 => some (.arr (acc ++ [v]), r2)
      | _ => none

end

/-- Model of `JSON.parse`: one value, then only trailing whitespace. -/
def jsonParse (s : List Char) : Option Json :=
  match parseVal (s.length + 8) s with
  | none => none
  | some (v, rest) => if skipWs rest = [] then some v else none

/-- First regex of the fence stripper: `replace(/^` ``` `json\s*/i, '')`. -/
def stripFenceJson (s : List Char) : List Char :=
  match s with
  | '`' :: '`' :: '`' :: c1 :: c2 :: c3 :: c4 :: rest =>
    if (c1 = 'j' ∨ c1 = 'J') ∧ (c2 = 's' ∨ c2 = 'S') ∧ (c3 = 'o' ∨ c3 = 'O') ∧
        (c4 = 'n' ∨ c4 = 'N') then skipWs rest
    else s
  | _ => s

/-- Second regex: `replace(/^` ``` `\s*/i, '')`. -/
def stripFencePlain (s : List Char) : List Char :=
  match s with
  | '`' :: '`' :: '`' :: rest => skipWs rest
  | _ => s

/-- Third regex: `replace(/\s*` ``` `$/i, '')`. -/
def stripFenceEnd (s : List Char) : List Char :=
  match skipWs s.reverse with
  | '`' :: '`' :: '`' :: rest => rest.reverse
  | _ => s

/-- Regex `/\{[\s\S]*\}/`: greedy match from the first opening brace to the
last closing brace after it; `none` when no such pair exists. -/
def jsonSlice (s : List Char) : Option (List Char) :=
  match s.dropWhile (fun c => c ≠ '{') with
  | [] => none
  | c :: rest =>
    match rest.reverse.dropWhile (fun c2 => c2 ≠ '}') with
    | [] => none
    | tail => some (c :: tail.reverse)

structure VerifyResult where
  verified : Bool
  explanation : String
  xpEarned : Nat
deriving DecidableEq

/-- What the `client.messages.create` call produced: a reply text, or a
thrown transport error carrying an optional HTTP status. -/
inductive OracleOutcome where
  | reply (text : String)
  | transportError (status : Option Int)

/-- Exceptions that can cross the `try` block of `verifyHabit`. -/
inductive JsThrow where
  | syntaxError
  | apiError (status : Option Int)

/-- Property access `result.f` on a parsed value: `undefined` (`none`)
unless the value is an object with the field; duplicate keys resolve to the
last binding, as in `JSON.parse`. -/
def getField (j : Json) (name : String) : Option Json :=
  match j with
  | .obj fields => (fields.reverse.find? (fun f => f.1 == name)).map (fun f => f.2)
  | _ => none

/-- JavaScript truthiness of a JSON value. -/
def jsTruthy : Json → Bool
  | .null => false
  | .bool b => b
  | .num mantissa _ => mantissa != 0
  | .str s => !(s == "")
  | .arr _ => true
  | .obj _ => true

/-- Display text of a JSON value used as the explanation (string values
pass through verbatim; the remaining truthy shapes are approximated). -/
def jsDisplay : Json → String
  | .str s => s
  | .num _ raw => raw
  | .bool b => if b then "true" else "false"
  | .null => "null"
  | .arr _ => "[array]"
  | .obj _ => "[object]"

def defaultExplanation (verified : Bool) : String :=
  if verified then "Habit verified!" else "Could not verify this time."

/-- Confidence validation (aiVerifier.js 140): membership test against the
three known levels, anything else — including a missing or non-string
field — coerces to `medium`. -/
def confidenceOf (j : Json) : String :=
  match getField j "confidence" with
  | some (.str c) => if c == "high" || c == "medium" || c == "low" then c else "medium"
  | _ => "medium"

/-- Reward mapping (aiVerifier.js 141–143). -/
def xpFor (verified : Bool) (confidence : String) : Nat :=
  if verified then
    if confidence == "high" then 50 else if confidence == "medium" then 35 else 20
  else 0

/-- Field validation and result assembly (aiVerifier.js 135–149). -/
def interpretParsed (j : Json) : VerifyResult :=
  match getField j "verified" with
  | some (.bool b) =>
    let confidence := confidenceOf j
    let xpEarned := xpFor b confidence
    let explanation :=
      match getField j "explanation" with
      | some v => if jsTruthy v then jsDisplay v else defaultExplanation b
      | none => defaultExplanation b
    ⟨b, explanation, xpEarned⟩
  | _ => ⟨false, "AI gave an incomplete response. Please try again.", 0⟩

/-- The reply text after `trim`, the three fence-stripping regexes, and
the final `trim` (aiVerifier.js 116–123). -/
def cleanedReply (text : String) : List Char :=
  trimChars (stripFenceEnd (stripFencePlain (stripFenceJson (trimChars text.data))))

/-- The `try` block of `verifyHabit` (aiVerifier.js 109–150): transport
failures and `JSON.parse` failures surface as thrown errors; a reply with
no brace region is an early safe return. -/
def tryBody (o : OracleOutcome) : Except JsThrow VerifyResult :=
  match o with
  | .transportError st => .error (.apiError st)
  | .reply text =>
    match jsonSlice (cleanedReply text) with
    | none => .ok ⟨false, "AI gave an unexpected response. Please try again.", 0⟩
    | some region =>
      match jsonParse region with
      | none => .error .syntaxError
      | some j => .ok (interpretParsed j)

/-- The `catch` block of `verifyHabit` (aiVerifier.js 151–176): an
if-chain on the thrown error, mirroring the source tests
`error instanceof SyntaxError` and `error?.status === ...`. -/
def catchHandler (e : JsThrow) : VerifyResult :=
  match e with
  | .syntaxError => ⟨false, "AI response could not be parsed. Please try again.", 0⟩
  | .apiError st =>
    if st = some 401 then
      ⟨false, "Server configuration error (invalid API key). Contact the admin.", 0⟩
    else if st = some 400 then
      ⟨false, "Could not process the image. Try a different format or smaller size.", 0⟩
    else if st = some 529 ∨ st = some 503 ∨ st = some 502 then
      ⟨false, "AI service is temporarily busy. Please try again in a moment.", 0⟩
    else if st = some 429 then
      ⟨false, "Too many requests right now. Please wait a moment and try again.", 0⟩
    else ⟨false, "Verification failed unexpectedly. Please try again.", 0⟩

/-- Interpretation of one oracle outcome: the `try` body with every thrown
error resolved by the `catch` block. -/
def verifyHabitResult (o : OracleOutcome) : VerifyResult :=
  match tryBody o with
  | .ok r => r
  | .error e => catchHandler e

/-- Image-preparation fallback inside `verifyHabit` (aiVerifier.js 75–85):
a failed `prepareImage` does not abort — the note is extended with a
disclosure and the request proceeds without the image.  Returns the
effective note and whether the image was included. -/
def noteAfterImagePrep (imageFile : Option ImageFile) (enc : Encoder)
    (proofNote : Option String) : Option String × Bool :=
  match imageFile with
  | none => (proofNote, false)
  | some f =>
    match prepareImage (some f) enc with
    | .ok _ => (proofNote, true)
    | .error e =>
      (some ((proofNote.getD "") ++
        "\n[User uploaded an image but it could not be processed: " ++ e ++ "]"), false)

/-- Model of `verifyHabit`: the evidence shapes the request content (the
effective note and the image-included flag, via `noteAfterImagePrep`); the
oracle is a substitutable port from that content to an outcome, and the
returned verdict interprets the outcome. -/
def verifyHabit (imageFile : Option ImageFile) (enc : Encoder)
    (proofNote : Option String) (oracle : Option String → Bool → OracleOutcome) : VerifyResult :=
  let prepped := noteAfterImagePrep imageFile enc proofNote
  verifyHabitResult (oracle prepped.1 prepped.2)

/-! ## Progression Ledger (`server.js` lines 275–381,
`POST /api/habits/:habitId/verify`)

The route touches one habit row, its owner's `xp`, and the completions
table.  `Db` restricts the store to those rows.  `proofNote` is the note
after the route's truncate-and-trim (empty notes arrive as `none`, matching
`truncate(...)?.trim() || null`).  `imagePath` is the stored upload path.
The oracle's result is a parameter; `oracleCalled` records whether control
reached the `verifyHabit` call. -/

structure Habit where
  id : Nat
  user_id : Nat
  streak : Nat
  longest_streak : Nat
  total_completions : Nat
deriving DecidableEq

structure Completion where
  habit_id : Nat
  user_id : Nat
  completed_date : String
  proof_image : Option String
  proof_note : Option String
  ai_verdict : String
  ai_explanation : String
  xp_earned : Nat
deriving DecidableEq

structure Db where
  habit : Habit
  userXp : Nat
  completions : List Completion
deriving DecidableEq

/-- The idempotency query (server.js 291–293):
`SELECT id FROM completions WHERE habit_id = ? AND completed_date = ? AND
ai_verdict = ?` with verdict `VERIFIED`, read as existence. -/
def findVerified (completions : List Completion) (habitId : Nat) (date : String) : Bool :=
  completions.any fun c =>
    c.habit_id == habitId && c.completed_date == date && c.ai_verdict == "VERIFIED"

/-- Milestone schedule (server.js 347–353). -/
def streakBonus (newStreak : Nat) : Nat :=
  if newStreak = 3 then 30
  else if newStreak = 7 then 100
  else if newStreak = 14 then 150
  else if newStreak = 30 then 500
  else if newStreak = 100 then 2000
  else if newStreak % 10 = 0 then 50
  else 0

inductive RouteResp where
  | failure (status : Nat) (message : String)
  | success (verified : Bool) (explanation : String) (xpEarned : Nat) (newStreak : Nat)
      (userXp : Nat) (userLevel : Nat) (progressPercent : Nat)
deriving DecidableEq

structure RouteOut where
  resp : RouteResp
  db : Db
  oracleCalled : Bool
deriving DecidableEq

/-- Model of the verification route body.  Mirrors the source order:
habit lookup, idempotency check on the pre-state, evidence-presence check,
oracle call, unconditional completion insert, then — only on a VERIFIED
verdict — the streak/longest/total update, the base XP award and the
conditional milestone bonus award, and finally the response assembled from
the re-read habit and user rows. -/
def postVerify (db : Db) (habitId : Nat) (nowMs : Int) (tzOffsetRaw : Option Int)
    (imagePath : Option String) (proofNote : Option String)
    (verification : VerifyResult) : RouteOut :=
  let tzOffsetNum : Int := tzOffsetRaw.getD 0
  if habitId ≠ db.habit.id then
    ⟨.failure 404 "Habit not found", db, false⟩
  else
    let today := todayString nowMs (some tzOffsetNum)
    if findVerified db.completions habitId today then
      ⟨.failure 400 "Already verified today! Come back tomorrow.", db, false⟩
    else if imagePath = none ∧ proofNote = none then
      ⟨.failure 400 "Please provide an image or a note as proof", db, false⟩
    else
      let completion : Completion :=
        ⟨habitId, db.habit.user_id, today, imagePath, proofNote,
         if verification.verified then "VERIFIED" else "REJECTED",
         verification.explanation, verification.xpEarned⟩
      let completions1 := db.completions ++ [completion]
      if verification.verified then
        let yesterday := yesterdayStringOf nowMs tzOffsetNum
        let completedYesterday := findVerified completions1 habitId yesterday
        let newStreak := if completedYesterday then db.habit.streak + 1 else 1
        let newLongestStreak := max newStreak db.habit.longest_streak
        let habit1 : Habit :=
          ⟨db.habit.id, db.habit.user_id, newStreak, newLongestStreak,
           db.habit.total_completions + 1⟩
        let xpAfterBase := db.userXp + verification.xpEarned
        let bonus := streakBonus newStreak
        let xpFinal := if 0 < bonus then xpAfterBase + bonus else xpAfterBase
        ⟨.success true verification.explanation verification.xpEarned habit1.streak xpFinal
          (calculateLevel xpFinal) (xpProgressPercent xpFinal),
         ⟨habit1, xpFinal, completions1⟩, true⟩
      else
        ⟨.success false verification.explanation verification.xpEarned db.habit.streak db.userXp
          (calculateLevel db.userXp) (xpProgressPercent db.userXp),
         ⟨db.habit, db.userXp, completions1⟩, true⟩

/-! ## Calendar facts: consecutive day numbers render as distinct dates -/

theorem aux_leap_correction (doe q1 q2 q3 y a b : Nat)
    (h : doe < 146097)
    (h1 : 1460*q1 ≤ doe) (h2 : doe < 1460*q1 + 1460)
    (h3 : 36524*q2 ≤ doe) (h4 : doe < 36524*q2 + 36524)
    (h5 : 146096*q3 ≤ doe) (h6 : doe < 146096*q3 + 146096)
    (h7 : 4*a ≤ y) (h8 : y < 4*a + 4)
    (h9 : 100*b ≤ y) (h10 : y < 100*b + 100)
    (h11 : 365*y + q1 ≤ doe + q2) :
    a + q2 ≤ b + q1 + q3 := by
  have hq2 : q2 ≤ 4 := by omega
  have hq3 : q3 ≤ 1 := by omega
  have hb : b ≤ 4 := by omega
  interval_cases q2 <;> interval_cases q3 <;> interval_cases b <;> omega

theorem yoe_lower (doe : Nat) (h : doe < 146097) :
    yearStart (yoeOfDoe doe) ≤ doe ∧ yoeOfDoe doe ≤ 399 := by
  have key := aux_leap_correction doe (doe/1460) (doe/36524) (doe/146096) (yoeOfDoe doe)
    (yoeOfDoe doe / 4) (yoeOfDoe doe / 100) h
  simp only [yoeOfDoe, yearStart] at *
  omega

theorem doy_bound (doe : Nat) (h : doe < 146097) : doyOfDoe doe < 500 := by
  simp only [doyOfDoe, yearStart, yoeOfDoe]
  omega

theorem md_small (doy : Nat) (h : doy < 500) : monthOf doy < 100 ∧ domOfDoy doy < 100 := by
  simp only [monthOf, domOfDoy, mpOf]
  split <;> omega

theorem md_step (t : Nat) (ht : 0 < t) :
    ¬(monthOf t % 100 = monthOf (t-1) % 100 ∧ domOfDoy t % 100 = domOfDoy (t-1) % 100) := by
  have hmp : mpOf (t-1) ≤ mpOf t ∧ mpOf t ≤ mpOf (t-1) + 1 := by
    simp only [mpOf]; omega
  rcases Nat.eq_or_lt_of_le hmp.1 with heq | hlt
  · intro hcon
    have hd : domOfDoy t = domOfDoy (t-1) + 1 := by
      simp only [mpOf] at heq
      simp only [domOfDoy, mpOf]
      omega
    have := hcon.2
    omega
  · have hstep : mpOf t = mpOf (t-1) + 1 := by omega
    intro hcon
    have hm := hcon.1
    simp only [monthOf, hstep] at hm
    split at hm <;> split at hm <;> omega

theorem digit_toNat : ∀ a : Nat, a < 10 → (Char.ofNat (48+a)).toNat = 48+a := by decide

theorem digit_inj (a b : Nat) (ha : a < 10) (hb : b < 10)
    (h : Char.ofNat (48+a) = Char.ofNat (48+b)) : a = b := by
  have h1 := digit_toNat a ha
  have h2 := digit_toNat b hb
  rw [h] at h1
  omega

theorem pad2_congr (n n' : Nat) (h : pad2 n = pad2 n') : n % 100 = n' % 100 := by
  simp only [pad2, List.cons.injEq, and_true] at h
  have e1 := digit_inj _ _ (Nat.mod_lt _ (by omega)) (Nat.mod_lt _ (by omega)) h.1
  have e2 := digit_inj _ _ (Nat.mod_lt _ (by omega)) (Nat.mod_lt _ (by omega)) h.2
  omega

theorem pad4_congr (n n' : Nat) (h : pad4 n = pad4 n') : n % 10000 = n' % 10000 := by
  simp only [pad4, List.cons.injEq, and_true] at h
  have e1 := digit_inj _ _ (Nat.mod_lt _ (by omega)) (Nat.mod_lt _ (by omega)) h.1
  have e2 := digit_inj _ _ (Nat.mod_lt _ (by omega)) (Nat.mod_lt _ (by omega)) h.2.1
  have e3 := digit_inj _ _ (Nat.mod_lt _ (by omega)) (Nat.mod_lt _ (by omega)) h.2.2.1
  have e4 := digit_inj _ _ (Nat.mod_lt _ (by omega)) (Nat.mod_lt _ (by omega)) h.2.2.2
  omega

theorem pad6_congr (n n' : Nat) (h : pad6 n = pad6 n') : n % 1000000 = n' % 1000000 := by
  simp only [pad6, List.cons.injEq, and_true] at h
  have e1 := digit_inj _ _ (Nat.mod_lt _ (by omega)) (Nat.mod_lt _ (by omega)) h.1
  have e2 := digit_inj _ _ (Nat.mod_lt _ (by omega)) (Nat.mod_lt _ (by omega)) h.2.1
  have e3 := digit_inj _ _ (Nat.mod_lt _ (by omega)) (Nat.mod_lt _ (by omega)) h.2.2.1
  have e4 := digit_inj _ _ (Nat.mod_lt _ (by omega)) (Nat.mod_lt _ (by omega)) h.2.2.2.1
  have e5 := digit_inj _ _ (Nat.mod_lt _ (by omega)) (Nat.mod_lt _ (by omega)) h.2.2.2.2.1
  have e6 := digit_inj _ _ (Nat.mod_lt _ (by omega)) (Nat.mod_lt _ (by omega)) h.2.2.2.2.2
  omega

theorem yearChars_inj (y y' : Int) (h : yearChars y = yearChars y')
    (hb : (y - y').natAbs ≤ 800) : y = y' := by
  simp only [yearChars] at h
  split_ifs at h with c1 c2 c3 c4 c5 c6
  · have := pad4_congr _ _ h
    omega
  · simp [pad4, pad6] at h
  · simp [pad4, pad6] at h
  · simp [pad4, pad6] at h
  · simp only [List.cons.injEq] at h
    have := pad6_congr _ _ h.2
    omega
  · simp at h
  · simp [pad4, pad6] at h
  · simp at h
  · simp only [List.cons.injEq] at h
    have := pad6_congr _ _ h.2
    omega

theorem doe_lt (z : Int) : doeOf z < 146097 := by
  simp only [doeOf, eraOf]
  omega

theorem doe_step (z : Int) :
    (0 < doeOf z ∧ doeOf (z-1) = doeOf z - 1 ∧ eraOf (z-1) = eraOf z) ∨
    (doeOf z = 0 ∧ doeOf (z-1) = 146096 ∧ eraOf (z-1) = eraOf z - 1) := by
  simp only [doeOf, eraOf]
  omega

theorem dateString_step (z : Int) : dateStringOfDay z ≠ dateStringOfDay (z - 1) := by
  intro heq
  simp only [dateStringOfDay, civilOfDay] at heq
  injection heq with hlist
  obtain ⟨hrest, hsufD⟩ := List.append_inj' hlist (by simp [pad2])
  rw [List.cons.injEq] at hsufD
  obtain ⟨-, hd⟩ := hsufD
  obtain ⟨hyc, hsufM⟩ := List.append_inj' hrest (by simp [pad2])
  rw [List.cons.injEq] at hsufM
  obtain ⟨-, hm⟩ := hsufM
  have hM100 := pad2_congr _ _ hm
  have hD100 := pad2_congr _ _ hd
  have hdlt := doe_lt z
  have hdlt' := doe_lt (z-1)
  have hyl := yoe_lower (doeOf z) hdlt
  have hyl' := yoe_lower (doeOf (z-1)) hdlt'
  have hdoy := doy_bound (doeOf z) hdlt
  have hdoy' := doy_bound (doeOf (z-1)) hdlt'
  have hms := md_small _ hdoy
  have hms' := md_small _ hdoy'
  -- the two rendered months agree exactly
  have hMeq : monthOf (doyOfDoe (doeOf z)) = monthOf (doyOfDoe (doeOf (z-1))) := by
    omega
  -- hence the year adjustments agree, and the rendered years agree exactly
  have hY := yearChars_inj _ _ hyc (by rcases doe_step z with ⟨h1, h2, h3⟩ | ⟨h1, h2, h3⟩ <;>
    rw [hMeq, h3] <;> split <;> omega)
  rw [hMeq] at hY
  rcases doe_step z with ⟨h1, h2, h3⟩ | ⟨h1, h2, h3⟩
  · -- same era: same year-of-era, day-of-year decrements
    rw [h3] at hY
    have hyoe : yoeOfDoe (doeOf z) = yoeOfDoe (doeOf (z-1)) := by
      split at hY <;> omega
    have hys : yearStart (yoeOfDoe (doeOf z)) ≤ doeOf z - 1 := by
      rw [hyoe]; omega
    have hdoy1 : 0 < doyOfDoe (doeOf z) ∧
        doyOfDoe (doeOf (z-1)) = doyOfDoe (doeOf z) - 1 := by
      simp only [doyOfDoe]
      rw [← hyoe, h2]
      omega
    exact md_step _ hdoy1.1 ⟨by rw [← hdoy1.2]; exact hMeq ▸ rfl, by rw [← hdoy1.2]; exact hD100⟩
  · -- era boundary: the old year would have to be year-of-era 399 ending in
    -- February, but day-of-era 0 renders as March 1st
    rw [h3] at hY
    have hz0 : yoeOfDoe (doeOf z) = 0 ∧ doyOfDoe (doeOf z) = 0 := by
      rw [h1]; exact ⟨rfl, rfl⟩
    have hM3 : monthOf (doyOfDoe (doeOf z)) = 3 := by
      rw [hz0.2]; rfl
    have hM3' : monthOf (doyOfDoe (doeOf (z-1))) = 3 := by
      rw [← hMeq]; exact hM3
    rw [hM3', hz0.1] at hY
    norm_num at hY
    omega

end HabitTracker

namespace HabitTracker

/-! ## Shared helper lemmas -/

/-- One UTC day earlier means the preceding calendar-day number. -/
theorem yesterdayStringOf_eq (t off : Int) :
    yesterdayStringOf t off = dateStringOfDay (dayNumber (t - off * 60000) - 1) := by
  simp only [yesterdayStringOf, dayNumber, msPerDay]
  congr 1
  omega

/-- Splitting the idempotency query over an appended row. -/
theorem findVerified_append (cs : List Completion) (c : Completion) (h : Nat) (d : String) :
    findVerified (cs ++ [c]) h d =
      (findVerified cs h d ||
        (c.habit_id == h && c.completed_date == d && c.ai_verdict == "VERIFIED")) := by
  simp [findVerified, List.any_append]

/-- The canonical day of "now" and the canonical day of "one day before
now" never coincide, for any instant and offset. -/
theorem today_ne_yesterday (nowMs off : Int) :
    todayString nowMs (some off) ≠ yesterdayStringOf nowMs off := by
  rw [yesterdayStringOf_eq]
  exact dateString_step (dayNumber (nowMs - off * 60000))

/-- Characterization of the route on the VERIFIED path. -/
theorem postVerify_verified_spec (db : Db) (habitId : Nat) (nowMs : Int) (tz : Option Int)
    (img note : Option String) (v : VerifyResult)
    (hid : habitId = db.habit.id) (hv : v.verified = true)
    (hft : findVerified db.completions habitId (todayString nowMs (some (tz.getD 0))) = false)
    (hproof : img ≠ none ∨ note ≠ none) :
    postVerify db habitId nowMs tz img note v =
      (let today := todayString nowMs (some (tz.getD 0))
       let completions1 := db.completions ++
         [⟨habitId, db.habit.user_id, today, img, note, "VERIFIED", v.explanation, v.xpEarned⟩]
       let newStreak :=
         if findVerified completions1 habitId (yesterdayStringOf nowMs (tz.getD 0))
         then db.habit.streak + 1 else 1
       let habit1 : Habit := ⟨db.habit.id, db.habit.user_id, newStreak,
         max newStreak db.habit.longest_streak, db.habit.total_completions + 1⟩
       let xpFinal := if 0 < streakBonus newStreak
         then db.userXp + v.xpEarned + streakBonus newStreak
         else db.userXp + v.xpEarned
       ⟨.success true v.explanation v.xpEarned newStreak xpFinal
         (calculateLevel xpFinal) (xpProgressPercent xpFinal),
        ⟨habit1, xpFinal, completions1⟩, true⟩) := by
  subst hid
  have hnp : ¬(img = none ∧ note = none) := by
    rcases hproof with h | h <;> intro hc <;> [exact h hc.1; exact h hc.2]
  simp only [postVerify, ne_eq, not_true_eq_false, if_false, hft, Bool.false_eq_true,
    hnp, hv, if_true]

/-- Characterization of the route on the REJECTED path. -/
theorem postVerify_rejected_spec (db : Db) (habitId : Nat) (nowMs : Int) (tz : Option Int)
    (img note : Option String) (v : VerifyResult)
    (hid : habitId = db.habit.id) (hv : v.verified = false)
    (hft : findVerified db.completions habitId (todayString nowMs (some (tz.getD 0))) = false)
    (hproof : img ≠ none ∨ note ≠ none) :
    postVerify db habitId nowMs tz img note v =
      ⟨.success false v.explanation v.xpEarned db.habit.streak db.userXp
        (calculateLevel db.userXp) (xpProgressPercent db.userXp),
       ⟨db.habit, db.userXp, db.completions ++
         [⟨habitId, db.habit.user_id, todayString nowMs (some (tz.getD 0)), img, note,
           "REJECTED", v.explanation, v.xpEarned⟩]⟩, true⟩ := by
  subst hid
  have hnp : ¬(img = none ∧ note = none) := by
    rcases hproof with h | h <;> intro hc <;> [exact h hc.1; exact h hc.2]
  simp only [postVerify, ne_eq, not_true_eq_false, if_false, hft, Bool.false_eq_true,
    hnp, hv]

/-- Characterization of the route when a VERIFIED completion already
exists for today. -/
theorem postVerify_blocked_spec (db : Db) (habitId : Nat) (nowMs : Int) (tz : Option Int)
    (img note : Option String) (v : VerifyResult)
    (hid : habitId = db.habit.id)
    (hft : findVerified db.completions habitId (todayString nowMs (some (tz.getD 0))) = true) :
    postVerify db habitId nowMs tz img note v =
      ⟨.failure 400 "Already verified today! Come back tomorrow.", db, false⟩ := by
  subst hid
  simp only [postVerify, ne_eq, not_true_eq_false, if_false, hft, if_true]

end HabitTracker

namespace HabitTracker

/-- C7.  For every instant and supplied offset, `todayString` renders the
calendar day of the instant minus the offset and `yesterdayString` renders
the immediately preceding calendar day; `todayString` with a missing offset
defaults to UTC, while `yesterdayString` with a missing offset faults
(invalid-date error) instead of defaulting to UTC. -/
theorem C7_day_boundary_resolver (t off : Int) :
    todayString t (some off) = dateStringOfDay (dayNumber (t - off * 60000)) ∧
    yesterdayString t (some off) =
      .ok (dateStringOfDay (dayNumber (t - off * 60000) - 1)) ∧
    todayString t none = dateStringOfDay (dayNumber t) ∧
    yesterdayString t none = .error () := by
  refine ⟨rfl, ?_, rfl, rfl⟩
  simp only [yesterdayString, yesterdayStringOf_eq]

/-- C7 counterexample: with no offset supplied the yesterday-resolver does
not fall back to UTC — it faults (`NaN` date, `toISOString` raises). -/
theorem C7_counterexample :
    yesterdayString 1700000000000 none = .error () := rfl

/-- C8.  The progression calculator: `level(0) = 1`, `progressPercent` is
clamped to 0–100 with `progressPercent(0) = 0`, `xpRequiredForLevel(L) =
L² * 50`, and the level brackets the xp from below and strictly from
above. -/
theorem C8_progression_calculator :
    calculateLevel 0 = 1 ∧ xpProgressPercent 0 = 0 ∧
    (∀ L : Nat, xpForLevel L = L ^ 2 * 50) ∧
    (∀ xp : Nat, xpProgressPercent xp ≤ 100) ∧
    (∀ xp : Nat, 1 < calculateLevel xp →
      xpForLevel (calculateLevel xp - 1) ≤ xp ∧ xp < xpForLevel (calculateLevel xp)) := by
  refine ⟨rfl, rfl, fun L => rfl, fun xp => Nat.min_le_left _ _, fun xp _ => ⟨?_, ?_⟩⟩
  · have h1 : Nat.sqrt (xp / 50) ^ 2 ≤ xp / 50 := Nat.sqrt_le' _
    have h2 : xp / 50 * 50 ≤ xp := Nat.div_mul_le_self xp 50
    simp only [calculateLevel, xpForLevel, Nat.add_sub_cancel_left]
    calc Nat.sqrt (xp / 50) ^ 2 * 50 ≤ xp / 50 * 50 := Nat.mul_le_mul_right 50 h1
    _ ≤ xp := h2
  · have h1 : xp / 50 < (Nat.sqrt (xp / 50) + 1) ^ 2 := by
      have := Nat.lt_succ_sqrt (xp / 50)
      simpa [pow_two, Nat.succ_eq_add_one] using this
    have h2 : xp < (Nat.sqrt (xp / 50) + 1) ^ 2 * 50 :=
      (Nat.div_lt_iff_lt_mul (by omega)).mp h1
    simpa [calculateLevel, xpForLevel, Nat.add_comm] using h2

/-- Evaluation principle for the well-founded `Nat.sqrt`. -/
theorem sqrt_eval (n m : Nat) (h1 : m * m ≤ n) (h2 : n < (m+1) * (m+1)) :
    Nat.sqrt n = m :=
  Nat.le_antisymm (Nat.lt_succ_iff.mp (Nat.sqrt_lt.mpr h2)) (Nat.le_sqrt.mpr h1)

theorem calculateLevel_200 : calculateLevel 200 = 3 := by
  simp only [calculateLevel]
  rw [show (200 : Nat) / 50 = 4 from rfl, sqrt_eval 4 2 (by decide) (by decide)]

/-- C8 witness at `xp = 200` (level 3). -/
theorem C8_witness :
    1 < calculateLevel 200 ∧
    xpForLevel (calculateLevel 200 - 1) ≤ 200 ∧ 200 < xpForLevel (calculateLevel 200) := by
  have hl : 1 < calculateLevel 200 := by rw [calculateLevel_200]; omega
  have h := (C8_progression_calculator).2.2.2.2 200 hl
  exact ⟨hl, h.1, h.2⟩

end HabitTracker

namespace HabitTracker

/-! ## Verdict Interpreter safety lemmas -/

/-- Every handled throw yields the safe default shape. -/
theorem catchHandler_safe (e : JsThrow) :
    (catchHandler e).verified = false ∧ (catchHandler e).xpEarned = 0 := by
  cases e with
  | syntaxError => exact ⟨rfl, rfl⟩
  | apiError st =>
    simp only [catchHandler]
    split_ifs <;> exact ⟨rfl, rfl⟩

/-- Field validation never grants XP on a non-verified result. -/
theorem interpretParsed_safe (j : Json) :
    ((interpretParsed j).verified = false → (interpretParsed j).xpEarned = 0) ∧
    ((interpretParsed j).xpEarned = 0 ∨ (interpretParsed j).xpEarned = 20 ∨
      (interpretParsed j).xpEarned = 35 ∨ (interpretParsed j).xpEarned = 50) := by
  simp only [interpretParsed]
  rcases hf : getField j "verified" with - | jv
  · exact ⟨fun _ => rfl, Or.inl rfl⟩
  · cases jv with
    | bool b =>
      cases b with
      | false => exact ⟨fun _ => rfl, Or.inl rfl⟩
      | true =>
        refine ⟨fun h => absurd h (by simp), ?_⟩
        simp only [xpFor, if_true]
        split_ifs <;> simp
    | null => exact ⟨fun _ => rfl, Or.inl rfl⟩
    | num m raw => exact ⟨fun _ => rfl, Or.inl rfl⟩
    | str sv => exact ⟨fun _ => rfl, Or.inl rfl⟩
    | arr es => exact ⟨fun _ => rfl, Or.inl rfl⟩
    | obj fs => exact ⟨fun _ => rfl, Or.inl rfl⟩

/-- Case analysis for the interpreter: the result is the catch handler
applied to a throw, the no-region default, or an interpreted parse. -/
theorem verifyHabitResult_cases (o : OracleOutcome) :
    (∃ e, tryBody o = .error e ∧ verifyHabitResult o = catchHandler e) ∨
    (verifyHabitResult o =
      ⟨false, "AI gave an unexpected response. Please try again.", 0⟩) ∨
    (∃ j, verifyHabitResult o = interpretParsed j) := by
  cases o with
  | transportError st =>
    exact Or.inl ⟨.apiError st, rfl, rfl⟩
  | reply text =>
    simp only [verifyHabitResult, tryBody]
    rcases hs : jsonSlice (cleanedReply text) with - | region
    · exact Or.inr (Or.inl rfl)
    · dsimp only
      rcases hp : jsonParse region with - | j
      · exact Or.inl ⟨.syntaxError, rfl, rfl⟩
      · exact Or.inr (Or.inr ⟨j, rfl⟩)

/-- A non-verified interpreter result always carries zero XP. -/
theorem rejected_xp_zero (o : OracleOutcome) :
    (verifyHabitResult o).verified = false → (verifyHabitResult o).xpEarned = 0 := by
  rcases verifyHabitResult_cases o with ⟨e, -, he⟩ | h | ⟨j, hj⟩
  · rw [he]
    exact fun _ => (catchHandler_safe e).2
  · rw [h]
    exact fun _ => rfl
  · rw [hj]
    exact (interpretParsed_safe j).1

end HabitTracker

namespace HabitTracker

/-- C5.  The derived `xpEarned` follows the fixed reward mapping: a
verified result earns 50 / 35 / 20 for high / medium / low confidence, an
unrecognized or missing confidence coerces to medium, a non-verified
result earns 0, and every result's XP lies in {0, 20, 35, 50} and is
positive only when verified. -/
theorem C5_reward_mapping :
    (∀ o : OracleOutcome,
      ((verifyHabitResult o).xpEarned = 0 ∨ (verifyHabitResult o).xpEarned = 20 ∨
        (verifyHabitResult o).xpEarned = 35 ∨ (verifyHabitResult o).xpEarned = 50) ∧
      ((verifyHabitResult o).verified = false → (verifyHabitResult o).xpEarned = 0) ∧
      (0 < (verifyHabitResult o).xpEarned → (verifyHabitResult o).verified = true)) ∧
    (∀ j : Json, getField j "verified" = some (.bool true) →
      (interpretParsed j).verified = true ∧
      (interpretParsed j).xpEarned =
        (if confidenceOf j = "high" then 50 else if confidenceOf j = "medium" then 35 else 20)) ∧
    (∀ j : Json, ∀ s : String, getField j "confidence" = some (.str s) →
      s ≠ "high" → s ≠ "medium" → s ≠ "low" → confidenceOf j = "medium") ∧
    (∀ j : Json, getField j "confidence" = none → confidenceOf j = "medium") ∧
    (∀ j : Json, getField j "verified" = some (.bool false) →
      (interpretParsed j).verified = false ∧ (interpretParsed j).xpEarned = 0) := by
  refine ⟨fun o => ?_, fun j hf => ?_, fun j s hc h1 h2 h3 => ?_, fun j hc => ?_, fun j hf => ?_⟩
  · have hz := rejected_xp_zero o
    have hset : (verifyHabitResult o).xpEarned = 0 ∨ (verifyHabitResult o).xpEarned = 20 ∨
        (verifyHabitResult o).xpEarned = 35 ∨ (verifyHabitResult o).xpEarned = 50 := by
      rcases verifyHabitResult_cases o with ⟨e, -, he⟩ | h | ⟨j, hj⟩
      · rw [he]
        exact Or.inl (catchHandler_safe e).2
      · rw [h]
        exact Or.inl rfl
      · rw [hj]
        exact (interpretParsed_safe j).2
    refine ⟨hset, hz, fun hpos => ?_⟩
    cases hver : (verifyHabitResult o).verified with
    | false => exact absurd (hz hver) (by omega)
    | true => rfl
  · rw [interpretParsed, hf]
    refine ⟨rfl, ?_⟩
    simp only [xpFor, if_true]
    rcases hch : confidenceOf j == "high" with - | -
    · rw [if_neg (by simpa using hch)]
      rcases hcm : confidenceOf j == "medium" with - | -
      · rw [if_neg (by simpa using hcm), if_neg (by simpa using hch), if_neg (by simpa using hcm)]
      · rw [if_pos (by simpa using hcm), if_neg (by simpa using hch), if_pos (by simpa using hcm)]
    · rw [if_pos (by simpa using hch), if_pos (by simpa using hch)]
  · simp [confidenceOf, hc, h1, h2, h3]
  · simp [confidenceOf, hc]
  · rw [interpretParsed, hf]
    exact ⟨rfl, rfl⟩

/-- C5 witness: a rate-limited transport failure earns 0; a verified
low-confidence parse earns 20; an unrecognized confidence coerces to
medium. -/
theorem C5_witness :
    (verifyHabitResult (.transportError (some 429))).xpEarned = 0 ∧
    (interpretParsed (Json.obj [("verified", .bool true), ("confidence", .str "low")])).xpEarned = 20 ∧
    confidenceOf (Json.obj [("verified", .bool true), ("confidence", .str "apex")]) = "medium" := by
  refine ⟨(C5_reward_mapping.1 (.transportError (some 429))).2.1 rfl, ?_, ?_⟩
  · have h := (C5_reward_mapping.2.1 (Json.obj
      [("verified", .bool true), ("confidence", .str "low")]) rfl).2
    rw [h, show confidenceOf (Json.obj
      [("verified", .bool true), ("confidence", .str "low")]) = "low" from rfl]
    decide
  · exact C5_reward_mapping.2.2.1 (Json.obj
      [("verified", .bool true), ("confidence", .str "apex")]) "apex" rfl
      (by decide) (by decide) (by decide)

end HabitTracker

namespace HabitTracker

/-- C3 (amended).  The verdict interpreter never raises: every oracle
outcome resolves to a returned result, either directly or through the
catch handler; every handled failure yields `verified = false`,
`xpEarned = 0` with its cause-specific explanation (configuration,
malformed request, overload, rate limit, parse failure, or the generic
fallback); a reply with no brace region or a non-boolean `verified` field
fails safe; fences and surrounding prose are stripped rather than
rejected, so a decodable structured answer inside them is interpreted
normally. -/
theorem C3_verdict_interpreter_amended :
    (∀ o : OracleOutcome, tryBody o = .ok (verifyHabitResult o) ∨
      ∃ e, tryBody o = .error e ∧ verifyHabitResult o = catchHandler e) ∧
    (∀ e : JsThrow, (catchHandler e).verified = false ∧ (catchHandler e).xpEarned = 0) ∧
    catchHandler .syntaxError =
      ⟨false, "AI response could not be parsed. Please try again.", 0⟩ ∧
    catchHandler (.apiError (some 401)) =
      ⟨false, "Server configuration error (invalid API key). Contact the admin.", 0⟩ ∧
    catchHandler (.apiError (some 400)) =
      ⟨false, "Could not process the image. Try a different format or smaller size.", 0⟩ ∧
    catchHandler (.apiError (some 529)) =
      ⟨false, "AI service is temporarily busy. Please try again in a moment.", 0⟩ ∧
    catchHandler (.apiError (some 503)) =
      ⟨false, "AI service is temporarily busy. Please try again in a moment.", 0⟩ ∧
    catchHandler (.apiError (some 502)) =
      ⟨false, "AI service is temporarily busy. Please try again in a moment.", 0⟩ ∧
    catchHandler (.apiError (some 429)) =
      ⟨false, "Too many requests right now. Please wait a moment and try again.", 0⟩ ∧
    (∀ st : Option Int, st ≠ some 401 → st ≠ some 400 → st ≠ some 529 → st ≠ some 503 →
      st ≠ some 502 → st ≠ some 429 →
      catchHandler (.apiError st) =
        ⟨false, "Verification failed unexpectedly. Please try again.", 0⟩) ∧
    (∀ text : String, jsonSlice (cleanedReply text) = none →
      verifyHabitResult (.reply text) =
        ⟨false, "AI gave an unexpected response. Please try again.", 0⟩) ∧
    (∀ text : String, ∀ region : List Char,
      jsonSlice (cleanedReply text) = some region → jsonParse region = none →
      verifyHabitResult (.reply text) =
        ⟨false, "AI response could not be parsed. Please try again.", 0⟩) ∧
    (∀ text : String, ∀ region : List Char, ∀ j : Json,
      jsonSlice (cleanedReply text) = some region → jsonParse region = some j →
      verifyHabitResult (.reply text) = interpretParsed j) ∧
    (∀ j : Json, (∀ b : Bool, getField j "verified" ≠ some (.bool b)) →
      interpretParsed j = ⟨false, "AI gave an incomplete response. Please try again.", 0⟩) := by
  refine ⟨fun o => ?_, catchHandler_safe, rfl, rfl, rfl, rfl, rfl, rfl, rfl,
    fun st h1 h2 h3 h4 h5 h6 => ?_, fun text hs => ?_, fun text region hs hp => ?_,
    fun text region j hs hp => ?_, fun j hnb => ?_⟩
  · rcases htb : tryBody o with e | r
    · exact Or.inr ⟨e, rfl, by simp [verifyHabitResult, htb]⟩
    · exact Or.inl (by simp [verifyHabitResult, htb])
  · simp [catchHandler, h1, h2, h3, h4, h5, h6]
  · simp only [verifyHabitResult, tryBody, hs]
  · simp only [verifyHabitResult, tryBody, hs]
    rw [hp]
    rfl
  · simp only [verifyHabitResult, tryBody, hs]
    rw [hp]
  · rw [interpretParsed]
    rcases hgf : getField j "verified" with - | jv
    · rfl
    · cases jv with
      | bool b => exact absurd hgf (hnb b)
      | null => rfl
      | num m raw => rfl
      | str sv => rfl
      | arr es => rfl
      | obj fs => rfl

/-- C3 counterexample: a reply wrapped in markdown code fences parses
successfully and returns a verified, XP-earning result — not the claimed
`verified = false`, `xpEarned = 0`. -/
theorem C3_counterexample :
    verifyHabitResult (.reply
      "```json\n\x7b\"verified\":true,\"explanation\":\"ok\",\"confidence\":\"high\"\x7d\n```")
      = ⟨true, "ok", 50⟩ := by decide

end HabitTracker

namespace HabitTracker

/-- C3 witness: an unlisted status resolves to the generic safe default,
and a braceless reply resolves to the unexpected-response default. -/
theorem C3_witness :
    catchHandler (.apiError (some 500)) =
      ⟨false, "Verification failed unexpectedly. Please try again.", 0⟩ ∧
    verifyHabitResult (.reply "hello") =
      ⟨false, "AI gave an unexpected response. Please try again.", 0⟩ := by
  obtain ⟨-, -, -, -, -, -, -, -, -, hgen, hnor, -, -, -⟩ := C3_verdict_interpreter_amended
  exact ⟨hgen (some 500) (by decide) (by decide) (by decide) (by decide) (by decide) (by decide),
    hnor "hello" (by decide)⟩

end HabitTracker

namespace HabitTracker

/-- C1.  When a persisted VERIFIED completion exists for (habit, today),
the submission is rejected with the already-verified error before the
oracle is consulted and with the store untouched; the check filters to
VERIFIED rows only, so when every persisted completion for (habit, today)
is non-VERIFIED the submission proceeds to the oracle and a new completion
row is recorded. -/
theorem C1_idempotency_check (db : Db) (habitId : Nat) (nowMs : Int) (tz : Option Int)
    (img note : Option String) (v : VerifyResult) (hid : habitId = db.habit.id) :
    (findVerified db.completions habitId (todayString nowMs (some (tz.getD 0))) = true →
      postVerify db habitId nowMs tz img note v =
        ⟨.failure 400 "Already verified today! Come back tomorrow.", db, false⟩) ∧
    ((∀ c ∈ db.completions, c.habit_id = habitId →
        c.completed_date = todayString nowMs (some (tz.getD 0)) → c.ai_verdict ≠ "VERIFIED") →
      (img ≠ none ∨ note ≠ none) →
      (postVerify db habitId nowMs tz img note v).oracleCalled = true ∧
      (postVerify db habitId nowMs tz img note v).db.completions =
        db.completions ++ [⟨habitId, db.habit.user_id, todayString nowMs (some (tz.getD 0)),
          img, note, if v.verified then "VERIFIED" else "REJECTED",
          v.explanation, v.xpEarned⟩]) := by
  constructor
  · intro hft
    exact postVerify_blocked_spec db habitId nowMs tz img note v hid hft
  · intro hnorej hproof
    have hft : findVerified db.completions habitId (todayString nowMs (some (tz.getD 0)))
        = false := by
      simp only [findVerified, List.any_eq_false, Bool.and_eq_true, beq_iff_eq, not_and]
      intro c hc h1
      exact hnorej c hc h1.1 h1.2
    cases hv : v.verified with
    | true =>
      rw [postVerify_verified_spec db habitId nowMs tz img note v hid hv hft hproof]
      refine ⟨rfl, ?_⟩
      simp only [hv, if_true, hid]
    | false =>
      rw [postVerify_rejected_spec db habitId nowMs tz img note v hid hv hft hproof]
      refine ⟨rfl, ?_⟩
      simp only [hv, Bool.false_eq_true, if_false, hid]

/-- C1 witness: a VERIFIED row for today blocks (oracle not called, store
unchanged); a REJECTED row for the same day does not block. -/
theorem C1_witness :
    (postVerify ⟨⟨5, 9, 6, 6, 20⟩, 1000,
        [⟨5, 9, "2023-11-14", none, none, "VERIFIED", "e", 50⟩]⟩
        5 1700000000000 (some 0) none (some "x") ⟨true, "great", 50⟩ =
      ⟨.failure 400 "Already verified today! Come back tomorrow.",
        ⟨⟨5, 9, 6, 6, 20⟩, 1000, [⟨5, 9, "2023-11-14", none, none, "VERIFIED", "e", 50⟩]⟩,
        false⟩) ∧
    (postVerify ⟨⟨5, 9, 6, 6, 20⟩, 1000,
        [⟨5, 9, "2023-11-14", none, none, "REJECTED", "e", 0⟩]⟩
        5 1700000000000 (some 0) none (some "x") ⟨true, "great", 50⟩).oracleCalled = true := by
  constructor
  · exact (C1_idempotency_check _ 5 1700000000000 (some 0) none (some "x")
      ⟨true, "great", 50⟩ rfl).1 (by decide)
  · exact ((C1_idempotency_check _ 5 1700000000000 (some 0) none (some "x")
      ⟨true, "great", 50⟩ rfl).2 (by decide) (Or.inr (by decide))).1

end HabitTracker

namespace HabitTracker

/-- C2.  On a VERIFIED verdict: the streak increments exactly when a
VERIFIED completion exists for the immediately preceding canonical day and
otherwise resets to 1 (never 0); the new longest streak is the max of the
old longest and the new streak; total completions increment by one; and
`longest_streak ≥ streak` holds afterwards. -/
theorem C2_streak_update (db : Db) (habitId : Nat) (nowMs : Int) (tz : Option Int)
    (img note : Option String) (v : VerifyResult) (hid : habitId = db.habit.id)
    (hv : v.verified = true)
    (hft : findVerified db.completions habitId (todayString nowMs (some (tz.getD 0))) = false)
    (hproof : img ≠ none ∨ note ≠ none) :
    (findVerified db.completions habitId (yesterdayStringOf nowMs (tz.getD 0)) = true →
      (postVerify db habitId nowMs tz img note v).db.habit.streak = db.habit.streak + 1) ∧
    (findVerified db.completions habitId (yesterdayStringOf nowMs (tz.getD 0)) = false →
      (postVerify db habitId nowMs tz img note v).db.habit.streak = 1) ∧
    1 ≤ (postVerify db habitId nowMs tz img note v).db.habit.streak ∧
    (postVerify db habitId nowMs tz img note v).db.habit.longest_streak =
      max db.habit.longest_streak ((postVerify db habitId nowMs tz img note v).db.habit.streak) ∧
    (postVerify db habitId nowMs tz img note v).db.habit.total_completions =
      db.habit.total_completions + 1 ∧
    (postVerify db habitId nowMs tz img note v).db.habit.streak ≤
      (postVerify db habitId nowMs tz img note v).db.habit.longest_streak := by
  rw [postVerify_verified_spec db habitId nowMs tz img note v hid hv hft hproof]
  have hY : findVerified
      (db.completions ++ [⟨db.habit.id, db.habit.user_id, todayString nowMs (some (tz.getD 0)),
        img, note, "VERIFIED", v.explanation, v.xpEarned⟩])
      db.habit.id (yesterdayStringOf nowMs (tz.getD 0)) =
      findVerified db.completions db.habit.id (yesterdayStringOf nowMs (tz.getD 0)) := by
    rw [findVerified_append]
    have hne : (todayString nowMs (some (tz.getD 0)) ==
        yesterdayStringOf nowMs (tz.getD 0)) = false := by
      simp only [beq_eq_false_iff_ne, ne_eq]
      exact today_ne_yesterday nowMs (tz.getD 0)
    simp [hne]
  rw [hid] at *
  refine ⟨fun hc => by simp [hY, hc], fun hc => by simp [hY, hc], ?_, ?_, rfl, ?_⟩ <;>
    rcases hYv : findVerified db.completions db.habit.id (yesterdayStringOf nowMs (tz.getD 0))
      with - | - <;>
    simp [hY, hYv] <;> omega

/-- C2 witness: streak 6 with a VERIFIED completion yesterday advances to
7; with no prior completions a verified attempt starts a streak of 1. -/
theorem C2_witness :
    (postVerify ⟨⟨5, 9, 6, 6, 20⟩, 1000,
        [⟨5, 9, "2023-11-13", none, none, "VERIFIED", "e", 50⟩]⟩
        5 1700000000000 (some 0) none (some "x") ⟨true, "great", 50⟩).db.habit.streak = 7 ∧
    (postVerify ⟨⟨5, 9, 6, 6, 20⟩, 1000, []⟩
        5 1700000000000 (some 0) none (some "x") ⟨true, "great", 50⟩).db.habit.streak = 1 := by
  constructor
  · have h := (C2_streak_update ⟨⟨5, 9, 6, 6, 20⟩, 1000,
        [⟨5, 9, "2023-11-13", none, none, "VERIFIED", "e", 50⟩]⟩
        5 1700000000000 (some 0) none (some "x") ⟨true, "great", 50⟩
        rfl rfl (by decide) (Or.inr (by decide))).1 (by decide)
    exact h
  · have h := (C2_streak_update ⟨⟨5, 9, 6, 6, 20⟩, 1000, []⟩
        5 1700000000000 (some 0) none (some "x") ⟨true, "great", 50⟩
        rfl rfl (by decide) (Or.inr (by decide))).2.1 (by decide)
    exact h

end HabitTracker

namespace HabitTracker

/-- C4.  On a VERIFIED verdict exactly one milestone bonus (possibly zero)
is selected by first-match-wins on the new streak: 3 → 30, 7 → 100,
14 → 150, 30 → 500, 100 → 2000, any other positive multiple of 10 → 50,
anything else → 0; the user's XP gains the base reward plus that bonus. -/
theorem C4_milestone_bonus :
    (∀ n : Nat, 1 ≤ n →
      (n = 3 → streakBonus n = 30) ∧ (n = 7 → streakBonus n = 100) ∧
      (n = 14 → streakBonus n = 150) ∧ (n = 30 → streakBonus n = 500) ∧
      (n = 100 → streakBonus n = 2000) ∧
      (n ≠ 3 → n ≠ 7 → n ≠ 14 → n ≠ 30 → n ≠ 100 → n % 10 = 0 → streakBonus n = 50) ∧
      (n ≠ 3 → n ≠ 7 → n ≠ 14 → n ≠ 30 → n ≠ 100 → n % 10 ≠ 0 → streakBonus n = 0)) ∧
    (∀ (db : Db) (habitId : Nat) (nowMs : Int) (tz : Option Int)
        (img note : Option String) (v : VerifyResult),
      habitId = db.habit.id → v.verified = true →
      findVerified db.completions habitId (todayString nowMs (some (tz.getD 0))) = false →
      (img ≠ none ∨ note ≠ none) →
      1 ≤ (postVerify db habitId nowMs tz img note v).db.habit.streak ∧
      (postVerify db habitId nowMs tz img note v).db.userXp =
        db.userXp + v.xpEarned +
          streakBonus ((postVerify db habitId nowMs tz img note v).db.habit.streak)) := by
  constructor
  · intro n hn
    refine ⟨fun h => by subst h; rfl, fun h => by subst h; rfl, fun h => by subst h; rfl,
      fun h => by subst h; rfl, fun h => by subst h; rfl, fun h3 h7 h14 h30 h100 hmod => ?_,
      fun h3 h7 h14 h30 h100 hmod => ?_⟩
    · simp only [streakBonus, if_neg h3, if_neg h7, if_neg h14, if_neg h30, if_neg h100,
        if_pos hmod]
    · simp only [streakBonus, if_neg h3, if_neg h7, if_neg h14, if_neg h30, if_neg h100,
        if_neg hmod]
  · intro db habitId nowMs tz img note v hid hv hft hproof
    rw [postVerify_verified_spec db habitId nowMs tz img note v hid hv hft hproof]
    rcases hYv : findVerified
        (db.completions ++ [⟨db.habit.id, db.habit.user_id,
          todayString nowMs (some (tz.getD 0)), img, note, "VERIFIED",
          v.explanation, v.xpEarned⟩])
        db.habit.id (yesterdayStringOf nowMs (tz.getD 0)) with - | - <;>
      rw [hid] <;> simp only [hYv, Bool.false_eq_true, if_false, if_true] <;>
      constructor <;> first
        | omega
        | (rcases hb : streakBonus (db.habit.streak + 1) with - | k <;> simp [hb])

/-- C4 witness: reaching streak 7 adds the 100-XP milestone on top of the
base 50; the bonus table at 7, 20, and 11. -/
theorem C4_witness :
    streakBonus 7 = 100 ∧ streakBonus 20 = 50 ∧ streakBonus 11 = 0 ∧
    (postVerify ⟨⟨5, 9, 6, 6, 20⟩, 1000,
        [⟨5, 9, "2023-11-13", none, none, "VERIFIED", "e", 50⟩]⟩
        5 1700000000000 (some 0) none (some "x") ⟨true, "great", 50⟩).db.userXp =
      1000 + 50 + streakBonus (postVerify ⟨⟨5, 9, 6, 6, 20⟩, 1000,
        [⟨5, 9, "2023-11-13", none, none, "VERIFIED", "e", 50⟩]⟩
        5 1700000000000 (some 0) none (some "x") ⟨true, "great", 50⟩).db.habit.streak := by
  refine ⟨(C4_milestone_bonus.1 7 (by decide)).2.1 rfl,
    (C4_milestone_bonus.1 20 (by decide)).2.2.2.2.2.1
      (by decide) (by decide) (by decide) (by decide) (by decide) (by decide),
    (C4_milestone_bonus.1 11 (by decide)).2.2.2.2.2.2
      (by decide) (by decide) (by decide) (by decide) (by decide) (by decide),
    (C4_milestone_bonus.2 ⟨⟨5, 9, 6, 6, 20⟩, 1000,
        [⟨5, 9, "2023-11-13", none, none, "VERIFIED", "e", 50⟩]⟩
        5 1700000000000 (some 0) none (some "x") ⟨true, "great", 50⟩
        rfl rfl (by decide) (Or.inr (by decide))).2⟩

end HabitTracker

namespace HabitTracker

/-- C9.  On a REJECTED verdict the attempt is still recorded: exactly one
completion row is appended, carrying verdict REJECTED and zero earned XP,
while the habit row and the user's XP are left untouched. -/
theorem C9_rejected_frame (db : Db) (habitId : Nat) (nowMs : Int) (tz : Option Int)
    (img note : Option String) (o : OracleOutcome) (hid : habitId = db.habit.id)
    (hft : findVerified db.completions habitId (todayString nowMs (some (tz.getD 0))) = false)
    (hproof : img ≠ none ∨ note ≠ none)
    (hv : (verifyHabitResult o).verified = false) :
    postVerify db habitId nowMs tz img note (verifyHabitResult o) =
      ⟨.success false (verifyHabitResult o).explanation 0 db.habit.streak db.userXp
        (calculateLevel db.userXp) (xpProgressPercent db.userXp),
       ⟨db.habit, db.userXp, db.completions ++
         [⟨habitId, db.habit.user_id, todayString nowMs (some (tz.getD 0)), img, note,
           "REJECTED", (verifyHabitResult o).explanation, 0⟩]⟩, true⟩ := by
  have hxp : (verifyHabitResult o).xpEarned = 0 := rejected_xp_zero o hv
  rw [postVerify_rejected_spec db habitId nowMs tz img note (verifyHabitResult o) hid hv hft
    hproof, hxp, hid]

/-- C9 witness: a reply with no structured answer verifies nothing; the
attempt is recorded as REJECTED with zero XP and no aggregate changes. -/
theorem C9_witness :
    postVerify ⟨⟨5, 9, 6, 6, 20⟩, 1000, []⟩ 5 1700000000000 (some 0) none (some "x")
        (verifyHabitResult (.reply "hello")) =
      ⟨.success false "AI gave an unexpected response. Please try again." 0 6 1000
        (calculateLevel 1000) (xpProgressPercent 1000),
       ⟨⟨5, 9, 6, 6, 20⟩, 1000,
        [⟨5, 9, "2023-11-14", none, some "x", "REJECTED",
          "AI gave an unexpected response. Please try again.", 0⟩]⟩, true⟩ := by
  have h := C9_rejected_frame ⟨⟨5, 9, 6, 6, 20⟩, 1000, []⟩ 5 1700000000000 (some 0)
    none (some "x") (.reply "hello") rfl (by decide) (Or.inr (by decide)) (by decide)
  rw [h]
  rfl

end HabitTracker

namespace HabitTracker

/-! ## Proof Normalizer lemmas -/

/-- A successful normalization never exceeds the ceiling. -/
theorem prepareImage_ok_le (f : ImageFile) (enc : Encoder) (out : List Nat × String)
    (h : prepareImage (some f) enc = .ok out) : out.1.length ≤ MAX_IMAGE_BYTES := by
  simp only [prepareImage] at h
  by_cases hg : f.ext = "gif"
  · rw [if_pos hg] at h
    by_cases hb : MAX_IMAGE_BYTES < f.bytes.length
    · rw [if_pos hb] at h
      exact absurd h (by simp)
    · rw [if_neg hb] at h
      obtain rfl : (f.bytes, "image/gif") = out := by simpa using h
      exact Nat.le_of_not_lt hb
  · rw [if_neg hg] at h
    rcases hcl : compressLoop enc 85 none with e | p <;> rw [hcl] at h
    · exact absurd h (by simp)
    · rcases p with ⟨- | b, q⟩ <;> dsimp only at h
      · exact absurd h (by simp)
      · by_cases hb : MAX_IMAGE_BYTES < b.length
        · rw [if_pos hb] at h
          exact absurd h (by simp)
        · rw [if_neg hb] at h
          obtain rfl : (b, "image/jpeg") = out := by simpa using h
          exact Nat.le_of_not_lt hb

/-- An over-ceiling GIF always fails with the GIF-specific error. -/
theorem prepareImage_gif_big (f : ImageFile) (enc : Encoder) (hg : f.ext = "gif")
    (hb : MAX_IMAGE_BYTES < f.bytes.length) :
    prepareImage (some f) enc = .error "GIF is too large. Please use a JPG or PNG instead." := by
  simp only [prepareImage, if_pos hg, if_pos hb]

/-- A within-ceiling GIF passes through unmodified. -/
theorem prepareImage_gif_ok (f : ImageFile) (enc : Encoder) (hg : f.ext = "gif")
    (hb : f.bytes.length ≤ MAX_IMAGE_BYTES) :
    prepareImage (some f) enc = .ok (f.bytes, "image/gif") := by
  simp only [prepareImage, if_pos hg, if_neg (Nat.not_lt_of_le hb)]

/-- When every encode comes back over the ceiling, the loop terminates
with the last (still oversized) buffer once the quality drops below the
floor. -/
theorem compressLoop_all_big (enc : Encoder)
    (hbig : ∀ q b, enc sharpResize q = .ok b → MAX_IMAGE_BYTES < b.length)
    (henc : ∀ q, ∃ b, enc sharpResize q = .ok b) :
    ∀ q, 20 ≤ q → ∀ buf, ∃ b qf, compressLoop enc q buf = .ok (some b, qf) ∧
      MAX_IMAGE_BYTES < b.length := by
  intro q
  induction q using Nat.strong_induction_on with
  | _ q ih =>
    intro hq buf
    obtain ⟨b, hb⟩ := henc q
    have hbig' := hbig q b hb
    rw [compressLoop.eq_def, dif_pos hq, hb]
    dsimp only
    rw [if_neg (Nat.not_le_of_lt hbig')]
    by_cases hq' : 20 ≤ q - 15
    · exact ih (q - 15) (by omega) hq' (some b)
    · rw [compressLoop.eq_def, dif_neg hq']
      exact ⟨b, q - 15, rfl, hbig'⟩

/-- The loop, and hence normalization, depends on the encoder only through
its behavior at the fixed resize specification. -/
theorem compressLoop_congr (enc enc' : Encoder)
    (h : ∀ q, enc sharpResize q = enc' sharpResize q) :
    ∀ q buf, compressLoop enc q buf = compressLoop enc' q buf := by
  intro q
  induction q using Nat.strong_induction_on with
  | _ q ih =>
    intro buf
    rw [compressLoop.eq_def, compressLoop.eq_def, h q]
    by_cases hq : 20 ≤ q
    · rw [dif_pos hq, dif_pos hq]
      rcases henc2 : enc' sharpResize q with e | b <;> dsimp only
      by_cases hb : b.length ≤ MAX_IMAGE_BYTES
      · rw [if_pos hb, if_pos hb]
      · rw [if_neg hb, if_neg hb, ih (q - 15) (by omega)]
    · rw [dif_neg hq, dif_neg hq]

/-- Non-GIF normalization with a first encode that already fits. -/
theorem prepareImage_first_fit (f : ImageFile) (enc : Encoder) (b : List Nat)
    (hg : f.ext ≠ "gif") (henc : enc sharpResize 85 = .ok b)
    (hfit : b.length ≤ MAX_IMAGE_BYTES) :
    prepareImage (some f) enc = .ok (b, "image/jpeg") := by
  have hcl : compressLoop enc 85 none = .ok (some b, 85) := by
    rw [compressLoop.eq_def, dif_pos (by omega), henc]
    dsimp only
    rw [if_pos hfit]
  simp only [prepareImage, if_neg hg, hcl, if_neg (Nat.not_lt_of_le hfit)]

/-- Non-GIF normalization when every encode is oversized: the call fails
with the too-large error rather than returning. -/
theorem prepareImage_all_big (f : ImageFile) (enc : Encoder) (hg : f.ext ≠ "gif")
    (hbig : ∀ q b, enc sharpResize q = .ok b → MAX_IMAGE_BYTES < b.length)
    (henc : ∀ q, ∃ b, enc sharpResize q = .ok b) :
    prepareImage (some f) enc =
      .error "Image is too large even after compression. Please use a smaller image." := by
  obtain ⟨b, qf, hcl, hbl⟩ := compressLoop_all_big enc hbig henc 85 (by omega) none
  simp only [prepareImage, if_neg hg, hcl, if_pos hbl]

/-- A successful non-GIF normalization is always re-encoded as JPEG. -/
theorem prepareImage_jpeg (f : ImageFile) (enc : Encoder) (out : List Nat × String)
    (hg : f.ext ≠ "gif") (h : prepareImage (some f) enc = .ok out) :
    out.2 = "image/jpeg" := by
  simp only [prepareImage, if_neg hg] at h
  rcases hcl : compressLoop enc 85 none with e | p <;> rw [hcl] at h
  · exact absurd h (by simp)
  · rcases p with ⟨- | b, q⟩ <;> dsimp only at h
    · exact absurd h (by simp)
    · by_cases hb : MAX_IMAGE_BYTES < b.length
      · rw [if_pos hb] at h
        exact absurd h (by simp)
      · rw [if_neg hb] at h
        obtain rfl : (b, "image/jpeg") = out := by simpa using h
        rfl

end HabitTracker

namespace HabitTracker

/-- C6.  Image normalization never returns a payload over the 4 MiB
ceiling; an over-ceiling GIF always fails (never re-encoded or
truncated); other formats are re-encoded through the fixed resize
specification (1600×1600, fit inside, no upscaling) starting at quality
85, the result is returned once it fits, and when every re-encode stays
over the ceiling the call fails with the too-large error once the quality
falls below the floor; the outcome depends on the encoder only through
that fixed resize specification. -/
theorem C6_image_normalization :
    (∀ (f : ImageFile) (enc : Encoder) (out : List Nat × String),
      prepareImage (some f) enc = .ok out → out.1.length ≤ MAX_IMAGE_BYTES) ∧
    (∀ (f : ImageFile) (enc : Encoder), f.ext = "gif" →
      MAX_IMAGE_BYTES < f.bytes.length →
      prepareImage (some f) enc =
        .error "GIF is too large. Please use a JPG or PNG instead.") ∧
    (∀ (f : ImageFile) (enc : Encoder) (b : List Nat), f.ext ≠ "gif" →
      enc sharpResize 85 = .ok b → b.length ≤ MAX_IMAGE_BYTES →
      prepareImage (some f) enc = .ok (b, "image/jpeg")) ∧
    (∀ (f : ImageFile) (enc : Encoder), f.ext ≠ "gif" →
      (∀ q b, enc sharpResize q = .ok b → MAX_IMAGE_BYTES < b.length) →
      (∀ q, ∃ b, enc sharpResize q = .ok b) →
      prepareImage (some f) enc =
        .error "Image is too large even after compression. Please use a smaller image.") ∧
    (∀ (f : ImageFile) (enc enc' : Encoder),
      (∀ q, enc sharpResize q = enc' sharpResize q) →
      prepareImage (some f) enc = prepareImage (some f) enc') := by
  refine ⟨prepareImage_ok_le, prepareImage_gif_big, prepareImage_first_fit,
    prepareImage_all_big, fun f enc enc' h => ?_⟩
  simp only [prepareImage, compressLoop_congr enc enc' h 85 none]

/-- C6 witness: an oversized GIF fails; an always-oversized encoder makes
a PNG fail with the too-large error; a fitting first encode succeeds with
a payload under the ceiling. -/
theorem C6_witness :
    prepareImage (some ⟨"gif", List.replicate 4194305 0⟩) (fun _ _ => .ok []) =
      .error "GIF is too large. Please use a JPG or PNG instead." ∧
    prepareImage (some ⟨"png", []⟩) (fun _ _ => .ok (List.replicate 4194305 0)) =
      .error "Image is too large even after compression. Please use a smaller image." ∧
    prepareImage (some ⟨"png", []⟩) (fun _ _ => .ok [7]) = .ok ([7], "image/jpeg") ∧
    (1 : Nat) ≤ MAX_IMAGE_BYTES := by
  refine ⟨C6_image_normalization.2.1 ⟨"gif", List.replicate 4194305 0⟩ (fun _ _ => .ok []) rfl
      (by simp only [List.length_replicate, MAX_IMAGE_BYTES]; omega),
    C6_image_normalization.2.2.2.1 ⟨"png", []⟩ _ (by decide)
      (fun q b hb => by
        cases hb
        simp only [List.length_replicate, MAX_IMAGE_BYTES]
        omega)
      (fun q => ⟨List.replicate 4194305 0, rfl⟩),
    C6_image_normalization.2.2.1 ⟨"png", []⟩ _ [7] (by decide) rfl (by decide), by decide⟩

/-- C10.  Every successfully normalized non-GIF image is re-encoded as
JPEG (`image/jpeg`), whatever the input format; a GIF within the ceiling
passes through unmodified as `image/gif`. -/
theorem C10_media_type :
    (∀ (f : ImageFile) (enc : Encoder) (out : List Nat × String), f.ext ≠ "gif" →
      prepareImage (some f) enc = .ok out → out.2 = "image/jpeg") ∧
    (∀ (f : ImageFile) (enc : Encoder), f.ext = "gif" →
      f.bytes.length ≤ MAX_IMAGE_BYTES →
      prepareImage (some f) enc = .ok (f.bytes, "image/gif")) := by
  exact ⟨fun f enc out hg h => prepareImage_jpeg f enc out hg h, prepareImage_gif_ok⟩

/-- C10 witness: a PNG re-encodes to JPEG; a small GIF passes through. -/
theorem C10_witness :
    (∃ out : List Nat × String,
      prepareImage (some ⟨"png", [1, 2]⟩) (fun _ _ => .ok [7]) = .ok out ∧
      out.2 = "image/jpeg") ∧
    prepareImage (some ⟨"gif", [1, 2]⟩) (fun _ _ => .ok [7]) = .ok ([1, 2], "image/gif") := by
  constructor
  · have h : prepareImage (some ⟨"png", [1, 2]⟩) (fun _ _ => .ok [7]) =
        .ok ([7], "image/jpeg") :=
      prepareImage_first_fit ⟨"png", [1, 2]⟩ _ [7] (by decide) rfl (by decide)
    exact ⟨([7], "image/jpeg"), h,
      C10_media_type.1 ⟨"png", [1, 2]⟩ _ ([7], "image/jpeg") (by decide) h⟩
  · exact C10_media_type.2 ⟨"gif", [1, 2]⟩ _ rfl (by decide)

end HabitTracker
